import Mathlib

/-!
Verification of the pricing-resolution and serial-number core of the
digital-invoice system (src/utils/helpers.ts, src/types.ts).

The TypeScript source is embedded shallowly:
* JS numbers that hold quantities, prices and sequence counters are `Int`
  (all uses in the source are integral).
* optional string fields (`customerId?`, `priceCategory?`, `specification?`)
  are `Option String`; JS truthiness of such a value (`if (customerId)`,
  `!rule.specification`) is `truthyS` / `falsyS`, which treat both `undefined`
  and the empty string as absent, exactly as the source's `if (x)` / `!x` do.
* `Array.prototype.sort` with a numeric comparator is a stable insertion
  sort on lists (ES2019 sort is stable).
* `parseInt(s, 10) || 0` is `parseIntJS`, which implements the JS semantics
  (skip leading whitespace, optional sign, longest digit run, `NaN` when no
  digits) followed by `.getD 0` (`NaN || 0` and `0 || 0` both give `0`).
-/

namespace InvoiceSystem

/-- JS truthiness of an optional string: `undefined` and `""` are falsy. -/
def truthyS : Option String → Bool
  | none => false
  | some s => !s.isEmpty

/-- JS falsiness of an optional string: `!x` for `x : string | undefined`. -/
def falsyS : Option String → Bool
  | none => true
  | some s => s.isEmpty

/-- PricingTier from src/types.ts: `minQuantity`, optional inclusive
`maxQuantity` (`none` = unbounded), `price`.  The `id` field is carried but
never read by the pricing functions. -/
structure PricingTier where
  id : String := ""
  minQuantity : Int
  maxQuantity : Option Int
  price : Int
  deriving DecidableEq

/-- PricingRule from src/types.ts.  `createdAt`/`updatedAt` are carried but
never read by the pricing functions. -/
structure PricingRule where
  id : String := ""
  productId : String
  customerId : Option String := none
  priceCategory : Option String := none
  specification : Option String := none
  basePrice : Int
  tiers : List PricingTier
  isActive : Bool
  createdAt : Int := 0
  updatedAt : Int := 0
  deriving DecidableEq

/-- The tier-matching test of the scan loop in `findPriceInTiers`
(helpers.ts lines 157-161): `quantity >= tier.minQuantity` and
(`maxQuantity` absent or `quantity <= maxQuantity`). -/
def tierSat (quantity : Int) (tier : PricingTier) : Bool :=
  quantity ≥ tier.minQuantity &&
    (match tier.maxQuantity with
     | none => true
     | some m => quantity ≤ m)

/-- Stable insertion (ascending by `minQuantity`) used to model
`[...tiers].sort((a, b) => a.minQuantity - b.minQuantity)`. -/
def insertTier (t : PricingTier) : List PricingTier → List PricingTier
  | [] => [t]
  | u :: us =>
    if t.minQuantity ≤ u.minQuantity then t :: u :: us else u :: insertTier t us

/-- Stable sort of tiers ascending by `minQuantity` (helpers.ts line 152). -/
def sortTiers (tiers : List PricingTier) : List PricingTier :=
  tiers.foldr insertTier []

/-- `findPriceInTiers` from helpers.ts lines 144-179, translated clause by
clause: empty tiers give `basePrice`; otherwise sort ascending, scan from the
highest tier downward for the first tier satisfying `tierSat`; if none
matches, return `basePrice` when the quantity is below the smallest
`minQuantity`, the last tier's price when the quantity exceeds its bounded
`maxQuantity`, and `basePrice` otherwise. -/
def findPriceInTiers (tiers : List PricingTier) (quantity : Int) (basePrice : Int) : Int :=
  if tiers.isEmpty then basePrice
  else
    let sortedTiers := sortTiers tiers
    match sortedTiers.reverse.find? (tierSat quantity) with
    | some tier => tier.price
    | none =>
      match sortedTiers with
      | [] => basePrice
      | t0 :: _ =>
        if quantity < t0.minQuantity then basePrice
        else
          match sortedTiers.getLast? with
          | some lastTier =>
            (match lastTier.maxQuantity with
             | some m => if quantity > m then lastTier.price else basePrice
             | none => basePrice)
          | none => basePrice

/-- `findPriceForProduct` from helpers.ts lines 43-141: filter to active
rules of the product, then the six-level priority cascade with early return,
then the first-rule fallback, then `null`. -/
def findPriceForProduct (productId : String) (quantity : Int)
    (specification : Option String) (customerId : Option String)
    (customerPriceCategory : Option String)
    (pricingRules : List PricingRule) : Option Int :=
  if pricingRules.isEmpty then none
  else
    let productRules := pricingRules.filter
      (fun rule => rule.productId == productId && rule.isActive)
    if productRules.isEmpty then none
    else
      -- Priority 1: customer-specific rule with matching specification
      match (if truthyS customerId && truthyS specification then
               productRules.find? (fun rule =>
                 rule.customerId == customerId && rule.specification == specification)
             else none) with
      | some rule => some (findPriceInTiers rule.tiers quantity rule.basePrice)
      | none =>
      -- Priority 2: customer-specific rule (any specification)
      match (if truthyS customerId then
               productRules.find? (fun rule =>
                 rule.customerId == customerId && falsyS rule.specification)
             else none) with
      | some rule => some (findPriceInTiers rule.tiers quantity rule.basePrice)
      | none =>
      -- Priority 3: price-category rule with matching specification
      match (if truthyS customerPriceCategory && truthyS specification then
               productRules.find? (fun rule =>
                 rule.priceCategory == customerPriceCategory &&
                 falsyS rule.customerId &&
                 rule.specification == specification)
             else none) with
      | some rule => some (findPriceInTiers rule.tiers quantity rule.basePrice)
      | none =>
      -- Priority 4: price-category rule (any specification)
      match (if truthyS customerPriceCategory then
               productRules.find? (fun rule =>
                 rule.priceCategory == customerPriceCategory &&
                 falsyS rule.customerId &&
                 falsyS rule.specification)
             else none) with
      | some rule => some (findPriceInTiers rule.tiers quantity rule.basePrice)
      | none =>
      -- Priority 5: general rule with matching specification
      match (if truthyS specification then
               productRules.find? (fun rule =>
                 falsyS rule.priceCategory &&
                 falsyS rule.customerId &&
                 rule.specification == specification)
             else none) with
      | some rule => some (findPriceInTiers rule.tiers quantity rule.basePrice)
      | none =>
      -- Priority 6: general rule (no category, no customer, no specification)
      match productRules.find? (fun rule =>
              falsyS rule.priceCategory &&
              falsyS rule.customerId &&
              falsyS rule.specification) with
      | some rule => some (findPriceInTiers rule.tiers quantity rule.basePrice)
      | none =>
      -- Fallback: return first available rule
      match productRules.head? with
      | some rule => some (findPriceInTiers rule.tiers quantity rule.basePrice)
      | none => none

/-- The six predicate levels of the cascade, as (applicability guard,
rule predicate) pairs in priority order, following the spec's description:
a level is applicable only when the caller supplied the corresponding
context arguments. -/
def claimLevels (specification customerId customerPriceCategory : Option String) :
    List (Bool × (PricingRule → Bool)) :=
  [ (truthyS customerId && truthyS specification,
     fun rule => rule.customerId == customerId && rule.specification == specification),
    (truthyS customerId,
     fun rule => rule.customerId == customerId && falsyS rule.specification),
    (truthyS customerPriceCategory && truthyS specification,
     fun rule => rule.priceCategory == customerPriceCategory &&
       falsyS rule.customerId && rule.specification == specification),
    (truthyS customerPriceCategory,
     fun rule => rule.priceCategory == customerPriceCategory &&
       falsyS rule.customerId && falsyS rule.specification),
    (truthyS specification,
     fun rule => falsyS rule.priceCategory && falsyS rule.customerId &&
       rule.specification == specification),
    (true,
     fun rule => falsyS rule.priceCategory && falsyS rule.customerId &&
       falsyS rule.specification) ]

/-- Per level: the first rule of `productRules` satisfying the level's
predicate, or `none` when the level is skipped or has no satisfying rule. -/
def claimLevelOpts (productRules : List PricingRule)
    (specification customerId customerPriceCategory : Option String) :
    List (Option PricingRule) :=
  (claimLevels specification customerId customerPriceCategory).map
    (fun gp => if gp.1 then productRules.find? gp.2 else none)

/-- The rule selected by the first applicable level that has any satisfying
rule, over the active rules of the product (the spec's levels 1-6, without
the first-rule fallback). -/
def claimCandidate (productId : String)
    (specification customerId customerPriceCategory : Option String)
    (pricingRules : List PricingRule) : Option PricingRule :=
  (claimLevelOpts
    (pricingRules.filter (fun rule => rule.productId == productId && rule.isActive))
    specification customerId customerPriceCategory).findSome? id

/-- The rule `findPriceForProduct` prices: the six levels followed by the
first-active-rule fallback. -/
def chainCandidate (productId : String)
    (specification customerId customerPriceCategory : Option String)
    (pricingRules : List PricingRule) : Option PricingRule :=
  let productRules := pricingRules.filter
    (fun rule => rule.productId == productId && rule.isActive)
  (claimLevelOpts productRules specification customerId customerPriceCategory
    ++ [productRules.head?]).findSome? id

/-- The shape `Array<{ serialNumber: string }>` taken by
`generateCustomerSerialNumber`. -/
structure InvoiceRef where
  serialNumber : String
  deriving DecidableEq

/-- `String.prototype.padEnd(n, '0')`: append zeros up to length `n`. -/
def padEndZeros (s : String) (n : Nat) : String :=
  s ++ String.mk (List.replicate (n - s.length) '0')

/-- `String(x).padStart(n, '0')`: prepend zeros up to length `n`. -/
def padStartZeros (s : String) (n : Nat) : String :=
  String.mk (List.replicate (n - s.length) '0') ++ s

/-- `s.slice(-n)`: the last `n` characters of `s` (all of `s` if shorter). -/
def sliceFromEnd (s : String) (n : Nat) : String :=
  String.mk (s.toList.drop (s.length - n))

/-- `String.prototype.startsWith`, on the character lists. -/
def startsWithJS (s pre : String) : Bool :=
  List.isPrefixOf pre.toList s.toList

/-- `getCustomerCode` from helpers.ts lines 182-187: strip characters outside
`[a-zA-Z0-9]`, uppercase, take the first 4 characters, pad with `'0'` to
length 4 (`toUpperCase` acts per character on the remaining ASCII
alphanumerics). -/
def getCustomerCode (customerId : String) : String :=
  let cleaned := String.mk ((customerId.toList.filter Char.isAlphanum).map Char.toUpper)
  padEndZeros (String.mk (cleaned.toList.take 4)) 4

/-- JS `parseInt(s, 10)`: skip leading whitespace, optional sign, then the
longest run of decimal digits; `none` models `NaN` (no digits found). -/
def parseIntJS (s : String) : Option Int :=
  let cs := s.toList.dropWhile Char.isWhitespace
  let signAndRest : Int × List Char :=
    match cs with
    | '-' :: rest => (-1, rest)
    | '+' :: rest => (1, rest)
    | _ => (1, cs)
  let digits := signAndRest.2.takeWhile Char.isDigit
  if digits.isEmpty then none
  else some (signAndRest.1 *
    Int.ofNat (digits.foldl (fun acc c => acc * 10 + (c.toNat - 48)) 0))

/-- `parseInt(inv.serialNumber.slice(-5), 10) || 0` from helpers.ts:
the sequence number read from a serial, with `NaN` collapsed to `0`
(`0 || 0` is also `0`, so `getD 0` is exact). -/
def seqOf (inv : InvoiceRef) : Int :=
  (parseIntJS (sliceFromEnd inv.serialNumber 5)).getD 0

/-- Stable insertion (descending by `seqOf`) used to model
`[...matchingInvoices].sort((a, b) => seqB - seqA)`. -/
def insertInvDesc (inv : InvoiceRef) : List InvoiceRef → List InvoiceRef
  | [] => [inv]
  | u :: us =>
    if seqOf u ≤ seqOf inv then inv :: u :: us else u :: insertInvDesc inv us

/-- Stable sort of invoices descending by sequence number
(helpers.ts lines 217-221). -/
def sortInvsDesc (l : List InvoiceRef) : List InvoiceRef :=
  l.foldr insertInvDesc []

/-- `generateCustomerSerialNumber` from helpers.ts lines 189-231.
`customerName` and `customerStartSerial` are accepted but never read, as in
the source. -/
def generateCustomerSerialNumber (customerName : String) (customerId : String)
    (customerInvoices : List InvoiceRef) (customerStartSerial : Option Int)
    (customerTier : Option String) : String :=
  let tierPref := if customerTier == some "industry" then "TC" else "CP"
  let customerCode := getCustomerCode customerId
  let basePref := tierPref ++ customerCode
  if customerInvoices.length > 0 then
    let matchingInvoices := customerInvoices.filter
      (fun inv => startsWithJS inv.serialNumber basePref)
    match sortInvsDesc matchingInvoices with
    | lastInvoice :: _ =>
      let lastSequence := seqOf lastInvoice
      basePref ++ padStartZeros (toString (lastSequence + 1)) 5
    | [] => basePref ++ "00001"
  else
    basePref ++ "00001"

/-! ## Structural lemmas -/

/-- The source's early-return cascade prices exactly the rule selected by the
level chain with first-rule fallback. -/
theorem findPriceForProduct_eq_chain (productId : String) (quantity : Int)
    (specification customerId customerPriceCategory : Option String)
    (pricingRules : List PricingRule) :
    findPriceForProduct productId quantity specification customerId
        customerPriceCategory pricingRules =
      (chainCandidate productId specification customerId customerPriceCategory
          pricingRules).map
        (fun r => findPriceInTiers r.tiers quantity r.basePrice) := by
  unfold findPriceForProduct chainCandidate claimLevelOpts claimLevels
  by_cases hE : pricingRules.isEmpty
  · rw [List.isEmpty_iff] at hE
    subst hE
    simp
  · by_cases hP : (pricingRules.filter
        (fun rule => rule.productId == productId && rule.isActive)).isEmpty
    · rw [List.isEmpty_iff] at hP
      simp [hP]
    · simp only [if_neg hE, if_neg hP,
        List.map_cons, List.map_nil, List.cons_append, List.nil_append,
        List.findSome?_cons, List.findSome?_nil, id_eq, eq_self_iff_true, if_true]
      generalize (if (truthyS customerId && truthyS specification) = true then
          List.find? (fun rule => rule.customerId == customerId && rule.specification == specification)
            (List.filter (fun rule => rule.productId == productId && rule.isActive) pricingRules)
        else none) = o1
      generalize (if truthyS customerId = true then
          List.find? (fun rule => rule.customerId == customerId && falsyS rule.specification)
            (List.filter (fun rule => rule.productId == productId && rule.isActive) pricingRules)
        else none) = o2
      generalize (if (truthyS customerPriceCategory && truthyS specification) = true then
          List.find? (fun rule => rule.priceCategory == customerPriceCategory &&
              falsyS rule.customerId && rule.specification == specification)
            (List.filter (fun rule => rule.productId == productId && rule.isActive) pricingRules)
        else none) = o3
      generalize (if truthyS customerPriceCategory = true then
          List.find? (fun rule => rule.priceCategory == customerPriceCategory &&
              falsyS rule.customerId && falsyS rule.specification)
            (List.filter (fun rule => rule.productId == productId && rule.isActive) pricingRules)
        else none) = o4
      generalize (if truthyS specification = true then
          List.find? (fun rule => falsyS rule.priceCategory &&
              falsyS rule.customerId && rule.specification == specification)
            (List.filter (fun rule => rule.productId == productId && rule.isActive) pricingRules)
        else none) = o5
      generalize (List.find? (fun rule => falsyS rule.priceCategory &&
              falsyS rule.customerId && falsyS rule.specification)
            (List.filter (fun rule => rule.productId == productId && rule.isActive) pricingRules)) = o6
      generalize (List.filter (fun rule => rule.productId == productId && rule.isActive) pricingRules).head? = o7
      cases o1 with
      | some r => rfl
      | none =>
      cases o2 with
      | some r => rfl
      | none =>
      cases o3 with
      | some r => rfl
      | none =>
      cases o4 with
      | some r => rfl
      | none =>
      cases o5 with
      | some r => rfl
      | none =>
      cases o6 with
      | some r => rfl
      | none =>
      cases o7 with
      | some r => rfl
      | none => rfl

/-- Membership is preserved by `insertTier`. -/
theorem mem_insertTier {x t : PricingTier} {l : List PricingTier} :
    x ∈ insertTier t l ↔ x = t ∨ x ∈ l := by
  induction l with
  | nil => simp [insertTier]
  | cons u us ih =>
    unfold insertTier
    by_cases h : t.minQuantity ≤ u.minQuantity
    · simp [h]
    · simp only [h, if_false, List.mem_cons, ih]
      tauto

theorem sortTiers_cons (t : PricingTier) (ts : List PricingTier) :
    sortTiers (t :: ts) = insertTier t (sortTiers ts) := rfl

/-- Sorting tiers neither adds nor removes tiers. -/
theorem mem_sortTiers {x : PricingTier} {l : List PricingTier} :
    x ∈ sortTiers l ↔ x ∈ l := by
  induction l with
  | nil => simp [sortTiers]
  | cons t ts ih => simp [sortTiers_cons, mem_insertTier, ih]

/-- Comparison order used by the tier sort. -/
def tierLE (a b : PricingTier) : Prop := a.minQuantity ≤ b.minQuantity

theorem pairwise_insertTier {t : PricingTier} {l : List PricingTier}
    (h : l.Pairwise tierLE) : (insertTier t l).Pairwise tierLE := by
  induction l with
  | nil => simp [insertTier]
  | cons u us ih =>
    rw [List.pairwise_cons] at h
    unfold insertTier
    by_cases hle : t.minQuantity ≤ u.minQuantity
    · rw [if_pos hle]
      refine List.Pairwise.cons ?_ (List.Pairwise.cons h.1 h.2)
      intro b hb
      rcases List.mem_cons.mp hb with rfl | hb
      · exact hle
      · exact le_trans hle (h.1 b hb)
    · rw [if_neg hle]
      refine List.Pairwise.cons ?_ (ih h.2)
      intro b hb
      rcases mem_insertTier.mp hb with rfl | hb
      · exact le_of_not_le hle
      · exact h.1 b hb

/-- The sorted tier list is ascending by `minQuantity`. -/
theorem pairwise_sortTiers (l : List PricingTier) : (sortTiers l).Pairwise tierLE := by
  induction l with
  | nil => simp [sortTiers]
  | cons t ts ih =>
    rw [sortTiers_cons]
    exact pairwise_insertTier ih

/-- `findPriceInTiers` only ever returns the base price or the price of one
of the given tiers. -/
theorem findPriceInTiers_range (tiers : List PricingTier) (q b : Int) :
    findPriceInTiers tiers q b = b ∨
      ∃ t ∈ tiers, findPriceInTiers tiers q b = t.price := by
  unfold findPriceInTiers
  by_cases hE : tiers.isEmpty
  · simp [hE]
  · rw [if_neg hE]
    cases hf : (sortTiers tiers).reverse.find? (tierSat q) with
    | some t =>
      simp only [hf]
      exact Or.inr ⟨t, mem_sortTiers.mp (List.mem_reverse.mp
        (List.mem_of_find?_eq_some hf)), rfl⟩
    | none =>
      simp only [hf]
      split
      · exact Or.inl rfl
      · rename_i t0 rest heq
        by_cases hq : q < t0.minQuantity
        · rw [if_pos hq]
          exact Or.inl rfl
        · rw [if_neg hq]
          split
          · rename_i lastTier heq2
            split
            · rename_i m heq3
              by_cases hgt : q > m
              · rw [if_pos hgt]
                refine Or.inr ⟨lastTier, ?_, rfl⟩
                exact mem_sortTiers.mp (List.mem_of_getLast?_eq_some heq2)
              · rw [if_neg hgt]
                exact Or.inl rfl
            · exact Or.inl rfl
          · exact Or.inl rfl

/-- A successful `findSome? id` result is one of the list's elements. -/
theorem findSome?_id_mem {α : Type} {l : List (Option α)} {r : α}
    (h : l.findSome? id = some r) : some r ∈ l := by
  induction l with
  | nil => simp at h
  | cons o os ih =>
    cases o with
    | some x =>
      rw [List.findSome?_cons] at h
      simp only [id_eq] at h
      simp at h
      simp [h]
    | none =>
      rw [List.findSome?_cons] at h
      simp only [id_eq] at h
      simp only [List.mem_cons]
      exact Or.inr (ih h)

theorem findSome?_id_append_isSome {α : Type} {l1 l2 : List (Option α)}
    (h : (l2.findSome? id).isSome) : ((l1 ++ l2).findSome? id).isSome := by
  rw [List.findSome?_append]
  cases hx : l1.findSome? id with
  | some x => simp
  | none => simpa using h

/-! ## Serial-number lemmas -/

theorem sortInvsDesc_cons (x : InvoiceRef) (xs : List InvoiceRef) :
    sortInvsDesc (x :: xs) = insertInvDesc x (sortInvsDesc xs) := rfl

theorem foldl_max_swap (l : List InvoiceRef) (a b : Int) :
    l.foldl (fun acc inv => max acc (seqOf inv)) (max a b) =
      max a (l.foldl (fun acc inv => max acc (seqOf inv)) b) := by
  induction l generalizing b with
  | nil => rfl
  | cons c cs ih =>
    simp only [List.foldl_cons]
    rw [max_assoc]
    exact ih (max b (seqOf c))

theorem insertInvDesc_head (x u : InvoiceRef) (us : List InvoiceRef) :
    ∃ y ys, insertInvDesc x (u :: us) = y :: ys ∧
      seqOf y = max (seqOf x) (seqOf u) := by
  unfold insertInvDesc
  by_cases h : seqOf u ≤ seqOf x
  · rw [if_pos h]
    exact ⟨x, u :: us, rfl, (max_eq_left h).symm⟩
  · rw [if_neg h]
    exact ⟨u, insertInvDesc x us, rfl, (max_eq_right (le_of_not_le h)).symm⟩

/-- The head of the descending sort carries the maximum sequence number. -/
theorem sortInvsDesc_head_max (x : InvoiceRef) (xs : List InvoiceRef) :
    ∃ y ys, sortInvsDesc (x :: xs) = y :: ys ∧
      seqOf y = xs.foldl (fun acc inv => max acc (seqOf inv)) (seqOf x) := by
  induction xs generalizing x with
  | nil => exact ⟨x, [], rfl, rfl⟩
  | cons z zs ih =>
    obtain ⟨w, ws, hw, hwseq⟩ := ih z
    rw [sortInvsDesc_cons, sortInvsDesc_cons] at *
    rw [hw]
    obtain ⟨y, ys, hy, hyseq⟩ := insertInvDesc_head x w ws
    refine ⟨y, ys, hy, ?_⟩
    rw [hyseq, hwseq, List.foldl_cons]
    rw [← foldl_max_swap]

/-! ## Claims about the serial-number generator -/

/-- Claim C7: every generated serial is TierPrefix ++ CustomerCode ++ a
5-zero-padded sequence rendering, where the tier prefix is "TC" exactly for
the "industry" tier and "CP" otherwise, and the customer code is the
customerId stripped to alphanumerics, uppercased, truncated to 4 and
right-padded with zeros. -/
theorem claim7_serial_format (customerName customerId : String)
    (customerInvoices : List InvoiceRef) (customerStartSerial : Option Int)
    (customerTier : Option String) :
    (∃ n : Int,
      generateCustomerSerialNumber customerName customerId customerInvoices
          customerStartSerial customerTier =
        (if customerTier == some "industry" then "TC" else "CP") ++
          (getCustomerCode customerId ++ padStartZeros (toString n) 5)) ∧
      getCustomerCode customerId =
        padEndZeros (String.mk
          ((String.mk ((customerId.toList.filter Char.isAlphanum).map Char.toUpper)).toList.take 4)) 4 := by
  constructor
  · have h1 : padStartZeros (toString (1 : Int)) 5 = "00001" := by decide
    unfold generateCustomerSerialNumber
    by_cases hlen : customerInvoices.length > 0
    · rw [if_pos hlen]
      cases hsort : sortInvsDesc (customerInvoices.filter (fun inv =>
          startsWithJS inv.serialNumber
            ((if customerTier == some "industry" then "TC" else "CP") ++
              getCustomerCode customerId))) with
      | cons lastInvoice tail =>
        refine ⟨seqOf lastInvoice + 1, ?_⟩
        simp only [hsort, String.append_assoc]
      | nil =>
        refine ⟨1, ?_⟩
        simp only [hsort, h1, String.append_assoc]
    · rw [if_neg hlen]
      exact ⟨1, by rw [h1, String.append_assoc]⟩
  · rfl

/-- Claim C9: the legacy customerStartSerial parameter never influences the
generated serial number. -/
theorem claim9_dead_start_serial (customerName customerId : String)
    (customerInvoices : List InvoiceRef) (customerTier : Option String)
    (s1 s2 : Option Int) :
    generateCustomerSerialNumber customerName customerId customerInvoices s1 customerTier =
      generateCustomerSerialNumber customerName customerId customerInvoices s2 customerTier := rfl

/-- Claim C8: the sequence part comes only from prior serials matching the
base prefix: parse the last five characters of each (NaN read as 0), take
the maximum and add one, zero-padding to five digits; with no matching
serial the sequence is 00001. -/
theorem claim8_sequence_from_max (customerName customerId : String)
    (customerInvoices : List InvoiceRef) (customerStartSerial : Option Int)
    (customerTier : Option String) :
    (customerInvoices.filter (fun inv => startsWithJS inv.serialNumber
        ((if customerTier == some "industry" then "TC" else "CP") ++
          getCustomerCode customerId)) = [] →
      generateCustomerSerialNumber customerName customerId customerInvoices
          customerStartSerial customerTier =
        ((if customerTier == some "industry" then "TC" else "CP") ++
          getCustomerCode customerId) ++ "00001") ∧
    (∀ x xs, customerInvoices.filter (fun inv => startsWithJS inv.serialNumber
        ((if customerTier == some "industry" then "TC" else "CP") ++
          getCustomerCode customerId)) = x :: xs →
      generateCustomerSerialNumber customerName customerId customerInvoices
          customerStartSerial customerTier =
        ((if customerTier == some "industry" then "TC" else "CP") ++
          getCustomerCode customerId) ++
          padStartZeros (toString
            (xs.foldl (fun acc inv => max acc (seqOf inv)) (seqOf x) + 1)) 5) := by
  constructor
  · intro hfil
    unfold generateCustomerSerialNumber
    by_cases hlen : customerInvoices.length > 0
    · rw [if_pos hlen]
      simp only [hfil, sortInvsDesc, List.foldr_nil]
    · rw [if_neg hlen]
  · intro x xs hfil
    have hne : customerInvoices.length > 0 := by
      rcases customerInvoices with _ | ⟨i, is⟩
      · simp at hfil
      · simp
    unfold generateCustomerSerialNumber
    rw [if_pos hne]
    simp only [hfil]
    obtain ⟨y, ys, hsort, hseq⟩ := sortInvsDesc_head_max x xs
    simp only [hsort, hseq]

/-- Witness for C8: a single matching prior serial CPABCD00007 yields
CPABCD00008. -/
theorem claim8_sequence_from_max_w :
    generateCustomerSerialNumber "" "abcd" [⟨"CPABCD00007"⟩] none none = "CPABCD00008" := by
  have h := (claim8_sequence_from_max "" "abcd" [⟨"CPABCD00007"⟩] none none).2
    ⟨"CPABCD00007"⟩ [] (by decide)
  exact h.trans (by decide)

/-! ## Claims about the pricing resolver -/

/-- Helper: a rule produced by the candidate chain belongs to the filtered
active rules of the product. -/
theorem chainCandidate_mem {productId : String}
    {specification customerId customerPriceCategory : Option String}
    {pricingRules : List PricingRule} {r : PricingRule}
    (h : chainCandidate productId specification customerId customerPriceCategory
      pricingRules = some r) :
    r ∈ pricingRules.filter (fun rule => rule.productId == productId && rule.isActive) := by
  unfold chainCandidate at h
  have hm := findSome?_id_mem h
  rcases List.mem_append.mp hm with hm | hm
  · unfold claimLevelOpts at hm
    rcases List.mem_map.mp hm with ⟨gp, hgp, hEq⟩
    by_cases hg : gp.1 = true
    · rw [if_pos hg] at hEq
      exact List.mem_of_find?_eq_some hEq
    · rw [if_neg hg] at hEq
      simp at hEq
  · simp only [List.mem_singleton] at hm
    rcases List.head?_eq_some_iff.mp hm.symm with ⟨ys, hys⟩
    rw [hys]
    exact List.mem_cons_self _ _

/-- Claim C1: the resolver restricts to matching active rules, walks the six
predicate levels in order skipping non-applicable levels, and returns the
tier-resolved price of the first rule satisfying the first applicable level
that has a satisfying rule; the spec's end-to-end example resolves to 500. -/
theorem claim1_priority_cascade :
    (∀ (productId : String) (quantity : Int)
       (specification customerId customerPriceCategory : Option String)
       (pricingRules : List PricingRule) (r : PricingRule),
       claimCandidate productId specification customerId customerPriceCategory
           pricingRules = some r →
       findPriceForProduct productId quantity specification customerId
           customerPriceCategory pricingRules =
         some (findPriceInTiers r.tiers quantity r.basePrice)) ∧
      findPriceForProduct "P1" 5 (some "A1") (some "C9") (some "industry")
        [{ productId := "P1", customerId := some "C9", specification := some "A1",
           basePrice := 500, tiers := [], isActive := true },
         { productId := "P1", priceCategory := some "industry", basePrice := 300,
           tiers := [], isActive := true }] = some 500 := by
  constructor
  · intro productId quantity specification customerId customerPriceCategory pricingRules r h
    rw [findPriceForProduct_eq_chain]
    have hc : chainCandidate productId specification customerId customerPriceCategory
        pricingRules = some r := by
      unfold chainCandidate
      unfold claimCandidate at h
      rw [List.findSome?_append, h]
      rfl
    rw [hc]
    rfl
  · decide

/-- Witness for C1: at the spec's example the first applicable level selects
the customer+specification rule, and the resolver prices it. -/
theorem claim1_priority_cascade_w :
    findPriceForProduct "P1" 5 (some "A1") (some "C9") (some "industry")
        [{ productId := "P1", customerId := some "C9", specification := some "A1",
           basePrice := 500, tiers := [], isActive := true },
         { productId := "P1", priceCategory := some "industry", basePrice := 300,
           tiers := [], isActive := true }] = some 500 := by
  have h := claim1_priority_cascade.1 "P1" 5 (some "A1") (some "C9") (some "industry")
    [{ productId := "P1", customerId := some "C9", specification := some "A1",
       basePrice := 500, tiers := [], isActive := true },
     { productId := "P1", priceCategory := some "industry", basePrice := 300,
       tiers := [], isActive := true }]
    { productId := "P1", customerId := some "C9", specification := some "A1",
      basePrice := 500, tiers := [], isActive := true } (by decide)
  exact h.trans (by decide)

/-- Claim C6: the resolver's output is always null, some rule's base price,
or some tier's price from the supplied rules, never a derived value. -/
theorem claim6_price_range (productId : String) (quantity : Int)
    (specification customerId customerPriceCategory : Option String)
    (pricingRules : List PricingRule) :
    findPriceForProduct productId quantity specification customerId
        customerPriceCategory pricingRules = none ∨
      ∃ r ∈ pricingRules,
        findPriceForProduct productId quantity specification customerId
            customerPriceCategory pricingRules = some r.basePrice ∨
          ∃ t ∈ r.tiers,
            findPriceForProduct productId quantity specification customerId
                customerPriceCategory pricingRules = some t.price := by
  rw [findPriceForProduct_eq_chain]
  cases hc : chainCandidate productId specification customerId customerPriceCategory
      pricingRules with
  | none => exact Or.inl rfl
  | some r =>
    refine Or.inr ⟨r, List.mem_of_mem_filter (chainCandidate_mem hc), ?_⟩
    simp only [Option.map_some']
    rcases findPriceInTiers_range r.tiers quantity r.basePrice with h | ⟨t, ht, h⟩
    · exact Or.inl (by rw [h])
    · exact Or.inr ⟨t, ht, by rw [h]⟩

/-- Claim C5: the resolver is total; it reports not-found exactly when no
active rule for the product exists, and when active rules exist but no level
matched it prices the first-encountered active rule. -/
theorem claim5_sentinel (productId : String) (quantity : Int)
    (specification customerId customerPriceCategory : Option String)
    (pricingRules : List PricingRule) :
    (findPriceForProduct productId quantity specification customerId
        customerPriceCategory pricingRules = none ↔
      pricingRules.filter (fun rule => rule.productId == productId && rule.isActive) = []) ∧
      (∀ r0 rest,
        pricingRules.filter (fun rule => rule.productId == productId && rule.isActive) =
          r0 :: rest →
        (claimLevelOpts (r0 :: rest) specification customerId
            customerPriceCategory).all Option.isNone = true →
        findPriceForProduct productId quantity specification customerId
            customerPriceCategory pricingRules =
          some (findPriceInTiers r0.tiers quantity r0.basePrice)) := by
  constructor
  · rw [findPriceForProduct_eq_chain]
    constructor
    · intro h
      rw [Option.map_eq_none'] at h
      unfold chainCandidate at h
      rw [List.findSome?_eq_none_iff] at h
      have hh := h (pricingRules.filter
        (fun rule => rule.productId == productId && rule.isActive)).head?
        (List.mem_append.mpr (Or.inr (List.mem_singleton.mpr rfl)))
      simp only [id_eq] at hh
      exact List.head?_eq_none_iff.mp hh
    · intro h
      unfold chainCandidate claimLevelOpts
      rw [h]
      have : ((claimLevels specification customerId customerPriceCategory).map
          (fun gp => if gp.1 then List.find? gp.2 [] else none) ++
            [(List.head? ([] : List PricingRule))]).findSome? id = none := by
        rw [List.findSome?_eq_none_iff]
        intro x hx
        rcases List.mem_append.mp hx with hx | hx
        · rcases List.mem_map.mp hx with ⟨gp, hgp, hEq⟩
          subst hEq
          simp only [id_eq, List.find?_nil]
          split
          · rfl
          · rfl
        · simp only [List.mem_singleton] at hx
          subst hx
          rfl
      rw [this]
      rfl
  · intro r0 rest hfil hall
    rw [findPriceForProduct_eq_chain]
    unfold chainCandidate
    rw [hfil]
    rw [List.findSome?_append]
    have hnone : (claimLevelOpts (r0 :: rest) specification customerId
        customerPriceCategory).findSome? id = none := by
      rw [List.findSome?_eq_none_iff]
      intro x hx
      rw [List.all_eq_true] at hall
      have := hall x hx
      simpa [Option.isNone_iff_eq_none] using this
    rw [hnone]
    rfl

/-- Witness for C5: one active rule for another customer; no level matches,
the fallback prices the first active rule (base price 42). -/
theorem claim5_sentinel_w :
    findPriceForProduct "P" 1 none (some "B") none
      [{ productId := "P", customerId := some "A", basePrice := 42,
         tiers := [], isActive := true }] = some 42 := by
  have h := (claim5_sentinel "P" 1 none (some "B") none
    [{ productId := "P", customerId := some "A", basePrice := 42,
       tiers := [], isActive := true }]).2
    { productId := "P", customerId := some "A", basePrice := 42,
      tiers := [], isActive := true } [] (by decide) (by decide)
  exact h.trans (by decide)

/-- Counterexample to C3 as stated: a customer-specific rule carrying a
specification the request does not supply loses to the general rule — the
resolver returns 200 (the general rule's base price), not 100. -/
theorem claim3_counterexample :
    findPriceForProduct "P" 1 none (some "C1") none
      [{ productId := "P", customerId := some "C1", specification := some "S",
         basePrice := 100, tiers := [], isActive := true },
       { productId := "P", basePrice := 200, tiers := [], isActive := true }] =
        some 200 ∧
      (200 : Int) ≠ 100 := by
  constructor
  · decide
  · decide

/-- Claim C3, amended: when some active customer rule for the product has no
specification, a request carrying that (nonempty) customerId always resolves
a rule bearing that customerId, never the general rule. -/
theorem claim3_customer_rule_wins (productId : String) (quantity : Int)
    (specification customerPriceCategory : Option String)
    (pricingRules : List PricingRule) (c : String) (rc : PricingRule)
    (hmem : rc ∈ pricingRules) (hpid : rc.productId = productId)
    (hact : rc.isActive = true) (hcust : rc.customerId = some c)
    (hnospec : falsyS rc.specification = true) (hc : c ≠ "") :
    ∃ r ∈ pricingRules, r.customerId = some c ∧
      findPriceForProduct productId quantity specification (some c)
          customerPriceCategory pricingRules =
        some (findPriceInTiers r.tiers quantity r.basePrice) := by
  have htr : truthyS (some c) = true := by
    cases hIE : c.isEmpty
    · simp [truthyS, hIE]
    · exact absurd ((String.isEmpty_iff c).mp hIE) hc
  have hmem2 : rc ∈ pricingRules.filter
      (fun rule => rule.productId == productId && rule.isActive) := by
    rw [List.mem_filter]
    refine ⟨hmem, ?_⟩
    simp [hpid, hact]
  rw [findPriceForProduct_eq_chain]
  unfold chainCandidate claimLevelOpts claimLevels
  simp only [List.map_cons, List.map_nil, List.cons_append, List.nil_append,
    List.findSome?_cons, List.findSome?_nil, id_eq]
  by_cases hG1 : (truthyS (some c) && truthyS specification) = true
  · rw [if_pos hG1]
    cases h1 : List.find?
        (fun rule => rule.customerId == some c && rule.specification == specification)
        (List.filter (fun rule => rule.productId == productId && rule.isActive)
          pricingRules) with
    | some r =>
      have hp := List.find?_some h1
      have hrmem : r ∈ pricingRules :=
        List.mem_of_mem_filter (List.mem_of_find?_eq_some h1)
      have hrc : r.customerId = some c := eq_of_beq ((Bool.and_eq_true _ _).mp hp).1
      exact ⟨r, hrmem, hrc, rfl⟩
    | none =>
      rw [if_pos htr]
      have hpred : (rc.customerId == some c && falsyS rc.specification) = true := by
        rw [hcust]
        simp [hnospec]
      have hex : (List.find?
          (fun rule => rule.customerId == some c && falsyS rule.specification)
          (List.filter (fun rule => rule.productId == productId && rule.isActive)
            pricingRules)).isSome := by
        rw [List.find?_isSome]
        exact ⟨rc, hmem2, hpred⟩
      obtain ⟨r, h2⟩ := Option.isSome_iff_exists.mp hex
      rw [h2]
      have hp := List.find?_some h2
      have hrmem : r ∈ pricingRules :=
        List.mem_of_mem_filter (List.mem_of_find?_eq_some h2)
      have hrc : r.customerId = some c := eq_of_beq ((Bool.and_eq_true _ _).mp hp).1
      exact ⟨r, hrmem, hrc, rfl⟩
  · rw [if_neg hG1]
    rw [if_pos htr]
    have hpred : (rc.customerId == some c && falsyS rc.specification) = true := by
      rw [hcust]
      simp [hnospec]
    have hex : (List.find?
        (fun rule => rule.customerId == some c && falsyS rule.specification)
        (List.filter (fun rule => rule.productId == productId && rule.isActive)
          pricingRules)).isSome := by
      rw [List.find?_isSome]
      exact ⟨rc, hmem2, hpred⟩
    obtain ⟨r, h2⟩ := Option.isSome_iff_exists.mp hex
    rw [h2]
    have hp := List.find?_some h2
    have hrmem : r ∈ pricingRules :=
      List.mem_of_mem_filter (List.mem_of_find?_eq_some h2)
    have hrc : r.customerId = some c := eq_of_beq ((Bool.and_eq_true _ _).mp hp).1
    exact ⟨r, hrmem, hrc, rfl⟩

/-- Witness for the amended C3 at a concrete input. -/
theorem claim3_customer_rule_wins_w :
    ∃ r ∈ [{ productId := "P", customerId := some "C1", basePrice := 100,
             tiers := [], isActive := true : PricingRule }],
      r.customerId = some "C1" ∧
      findPriceForProduct "P" 1 none (some "C1") none
        [{ productId := "P", customerId := some "C1", basePrice := 100,
           tiers := [], isActive := true }] =
        some (findPriceInTiers r.tiers 1 r.basePrice) :=
  claim3_customer_rule_wins "P" 1 none none
    [{ productId := "P", customerId := some "C1", basePrice := 100,
       tiers := [], isActive := true }] "C1"
    { productId := "P", customerId := some "C1", basePrice := 100,
      tiers := [], isActive := true }
    (by decide) rfl rfl rfl rfl (by decide)

/-- Counterexample to C4 as stated: a category rule carrying a specification
the request does not supply loses to the general rule — the resolver returns
200 (the general rule's base price), not 100. -/
theorem claim4_counterexample :
    findPriceForProduct "P" 1 none none (some "industry")
      [{ productId := "P", priceCategory := some "industry",
         specification := some "S", basePrice := 100, tiers := [],
         isActive := true },
       { productId := "P", basePrice := 200, tiers := [], isActive := true }] =
        some 200 ∧
      (200 : Int) ≠ 100 := by
  constructor
  · decide
  · decide

/-- Claim C4, amended: when some active category rule for the product
(matching the caller's nonempty category, no customerId, no specification)
exists and no active rule for the product matches the caller's customerId,
the resolver prices a rule bearing that category and no customerId, never the
general rule. -/
theorem claim4_category_rule_wins (productId : String) (quantity : Int)
    (specification customerId : Option String)
    (pricingRules : List PricingRule) (pc : String) (rcat : PricingRule)
    (hmem : rcat ∈ pricingRules) (hpid : rcat.productId = productId)
    (hact : rcat.isActive = true) (hcat : rcat.priceCategory = some pc)
    (hnocust : falsyS rcat.customerId = true)
    (hnospec : falsyS rcat.specification = true) (hpc : pc ≠ "")
    (hnc : truthyS customerId = true → ∀ r ∈ pricingRules,
      r.productId = productId → r.isActive = true →
      (r.customerId == customerId) = false) :
    ∃ r ∈ pricingRules, r.priceCategory = some pc ∧ falsyS r.customerId = true ∧
      findPriceForProduct productId quantity specification customerId
          (some pc) pricingRules =
        some (findPriceInTiers r.tiers quantity r.basePrice) := by
  have htr : truthyS (some pc) = true := by
    cases hIE : pc.isEmpty
    · simp [truthyS, hIE]
    · exact absurd ((String.isEmpty_iff pc).mp hIE) hpc
  have hmem2 : rcat ∈ pricingRules.filter
      (fun rule => rule.productId == productId && rule.isActive) := by
    rw [List.mem_filter]
    refine ⟨hmem, ?_⟩
    simp [hpid, hact]
  have hnofind : ∀ p : PricingRule → Bool,
      (∀ x, p x = true → (x.customerId == customerId) = true) →
      List.find? p (List.filter
        (fun rule => rule.productId == productId && rule.isActive)
        pricingRules) = none ∨ truthyS customerId = false := by
    intro p hsub
    by_cases htc : truthyS customerId = true
    · left
      rw [List.find?_eq_none]
      intro x hx hpx
      have hxf := List.mem_filter.mp hx
      have hxp := (Bool.and_eq_true _ _).mp hxf.2
      have := hnc htc x hxf.1 (eq_of_beq hxp.1) hxp.2
      rw [hsub x hpx] at this
      cases this
    · right
      exact Bool.not_eq_true _ ▸ Bool.of_not_eq_true htc
  rw [findPriceForProduct_eq_chain]
  unfold chainCandidate claimLevelOpts claimLevels
  simp only [List.map_cons, List.map_nil, List.cons_append, List.nil_append,
    List.findSome?_cons, List.findSome?_nil, id_eq]
  have h1 : (if (truthyS customerId && truthyS specification) = true then
      List.find?
        (fun rule => rule.customerId == customerId && rule.specification == specification)
        (List.filter (fun rule => rule.productId == productId && rule.isActive)
          pricingRules)
    else none) = none := by
    by_cases hG : (truthyS customerId && truthyS specification) = true
    · rw [if_pos hG]
      rcases hnofind
          (fun rule => rule.customerId == customerId && rule.specification == specification)
          (fun x hx => ((Bool.and_eq_true _ _).mp hx).1) with hn | hf
      · exact hn
      · rw [((Bool.and_eq_true _ _).mp hG).1] at hf
        cases hf
    · rw [if_neg hG]
  have h2 : (if truthyS customerId = true then
      List.find?
        (fun rule => rule.customerId == customerId && falsyS rule.specification)
        (List.filter (fun rule => rule.productId == productId && rule.isActive)
          pricingRules)
    else none) = none := by
    by_cases hG : truthyS customerId = true
    · rw [if_pos hG]
      rcases hnofind
          (fun rule => rule.customerId == customerId && falsyS rule.specification)
          (fun x hx => ((Bool.and_eq_true _ _).mp hx).1) with hn | hf
      · exact hn
      · rw [hG] at hf
        cases hf
    · rw [if_neg hG]
  rw [h1, h2]
  by_cases hG3 : (truthyS (some pc) && truthyS specification) = true
  · rw [if_pos hG3]
    cases h3 : List.find?
        (fun rule => rule.priceCategory == some pc && falsyS rule.customerId &&
          rule.specification == specification)
        (List.filter (fun rule => rule.productId == productId && rule.isActive)
          pricingRules) with
    | some r =>
      have hp := List.find?_some h3
      simp only [Bool.and_eq_true, beq_iff_eq] at hp
      exact ⟨r, List.mem_of_mem_filter (List.mem_of_find?_eq_some h3),
        hp.1.1, hp.1.2, rfl⟩
    | none =>
      rw [if_pos htr]
      have hpred : (rcat.priceCategory == some pc && falsyS rcat.customerId &&
          falsyS rcat.specification) = true := by
        rw [hcat]
        simp [hnocust, hnospec]
      have hex : (List.find?
          (fun rule => rule.priceCategory == some pc && falsyS rule.customerId &&
            falsyS rule.specification)
          (List.filter (fun rule => rule.productId == productId && rule.isActive)
            pricingRules)).isSome := by
        rw [List.find?_isSome]
        exact ⟨rcat, hmem2, hpred⟩
      obtain ⟨r, h4⟩ := Option.isSome_iff_exists.mp hex
      rw [h4]
      have hp := List.find?_some h4
      simp only [Bool.and_eq_true, beq_iff_eq] at hp
      exact ⟨r, List.mem_of_mem_filter (List.mem_of_find?_eq_some h4),
        hp.1.1, hp.1.2, rfl⟩
  · rw [if_neg hG3]
    rw [if_pos htr]
    have hpred : (rcat.priceCategory == some pc && falsyS rcat.customerId &&
        falsyS rcat.specification) = true := by
      rw [hcat]
      simp [hnocust, hnospec]
    have hex : (List.find?
        (fun rule => rule.priceCategory == some pc && falsyS rule.customerId &&
          falsyS rule.specification)
        (List.filter (fun rule => rule.productId == productId && rule.isActive)
          pricingRules)).isSome := by
      rw [List.find?_isSome]
      exact ⟨rcat, hmem2, hpred⟩
    obtain ⟨r, h4⟩ := Option.isSome_iff_exists.mp hex
    rw [h4]
    have hp := List.find?_some h4
    simp only [Bool.and_eq_true, beq_iff_eq] at hp
    exact ⟨r, List.mem_of_mem_filter (List.mem_of_find?_eq_some h4),
      hp.1.1, hp.1.2, rfl⟩

/-- Witness for the amended C4 at a concrete input. -/
theorem claim4_category_rule_wins_w :
    ∃ r ∈ [{ productId := "P", priceCategory := some "industry", basePrice := 150,
             tiers := [], isActive := true : PricingRule },
           { productId := "P", basePrice := 200, tiers := [],
             isActive := true : PricingRule }],
      r.priceCategory = some "industry" ∧ falsyS r.customerId = true ∧
      findPriceForProduct "P" 1 none none (some "industry")
        [{ productId := "P", priceCategory := some "industry", basePrice := 150,
           tiers := [], isActive := true },
         { productId := "P", basePrice := 200, tiers := [], isActive := true }] =
        some (findPriceInTiers r.tiers 1 r.basePrice) :=
  claim4_category_rule_wins "P" 1 none none
    [{ productId := "P", priceCategory := some "industry", basePrice := 150,
       tiers := [], isActive := true },
     { productId := "P", basePrice := 200, tiers := [], isActive := true }]
    "industry"
    { productId := "P", priceCategory := some "industry", basePrice := 150,
      tiers := [], isActive := true }
    (by decide) rfl rfl rfl rfl rfl (by decide) (by decide)

/-- Claim C2: tier resolution sorts ascending by minQuantity, scans from the
highest tier downward returning the first satisfying tier's price; below the
smallest tier it returns the base price; past the last tier's bounded
maxQuantity (with no tier satisfied) it returns the last tier's price; empty
tiers give the base price; and the spec's boundary examples hold. -/
theorem claim2_tier_resolution (tiers : List PricingTier) (q b : Int) :
    (tiers = [] → findPriceInTiers tiers q b = b) ∧
    (∀ t, (sortTiers tiers).reverse.find? (tierSat q) = some t →
      findPriceInTiers tiers q b = t.price) ∧
    (∀ t0 rest, sortTiers tiers = t0 :: rest → q < t0.minQuantity →
      findPriceInTiers tiers q b = b) ∧
    (∀ t0 rest tl m, sortTiers tiers = t0 :: rest → t0.minQuantity ≤ q →
      (sortTiers tiers).reverse.find? (tierSat q) = none →
      (t0 :: rest).getLast? = some tl → tl.maxQuantity = some m → m < q →
      findPriceInTiers tiers q b = tl.price) ∧
    (findPriceInTiers [⟨"t1", 1, some 9, 100⟩, ⟨"t2", 10, none, 80⟩] 9 b = 100 ∧
     findPriceInTiers [⟨"t1", 1, some 9, 100⟩, ⟨"t2", 10, none, 80⟩] 10 b = 80 ∧
     findPriceInTiers [⟨"t1", 1, some 9, 100⟩, ⟨"t2", 10, none, 80⟩] 1000 b = 80) := by
  refine ⟨?_, ?_, ?_, ?_, ?_, ?_, ?_⟩
  · intro h
    subst h
    rfl
  · intro t hf
    have hne : ¬(tiers.isEmpty = true) := by
      intro h
      rw [List.isEmpty_iff] at h
      subst h
      simp [sortTiers] at hf
    simp only [findPriceInTiers, if_neg hne, hf]
  · intro t0 rest hs hq
    have hne : ¬(tiers.isEmpty = true) := by
      intro h
      rw [List.isEmpty_iff] at h
      subst h
      simp [sortTiers] at hs
    have hfind : (sortTiers tiers).reverse.find? (tierSat q) = none := by
      rw [List.find?_eq_none]
      intro t ht htq
      rw [List.mem_reverse, hs] at ht
      have hpw := pairwise_sortTiers tiers
      rw [hs, List.pairwise_cons] at hpw
      have hmin : t0.minQuantity ≤ t.minQuantity := by
        rcases List.mem_cons.mp ht with rfl | ht
        · exact le_refl _
        · exact hpw.1 t ht
      have hq2 : t.minQuantity ≤ q :=
        of_decide_eq_true ((Bool.and_eq_true _ _).mp htq).1
      omega
    rw [hs] at hfind
    simp only [findPriceInTiers, if_neg hne, hfind, hs, if_pos hq]
  · intro t0 rest tl m hs hminq hfind hlast hm hmq
    have hne : ¬(tiers.isEmpty = true) := by
      intro h
      rw [List.isEmpty_iff] at h
      subst h
      simp [sortTiers] at hs
    rw [hs] at hfind
    simp only [findPriceInTiers, if_neg hne, hfind, hs, hlast, hm]
    rw [if_neg (not_lt.mpr hminq), if_pos hmq]
  · rfl
  · rfl
  · rfl

/-- Witness for C2: the past-the-bounded-top clause at a concrete input. -/
theorem claim2_tier_resolution_w :
    findPriceInTiers [⟨"t1", 1, some 9, 100⟩] 50 7 = 100 :=
  ((claim2_tier_resolution [⟨"t1", 1, some 9, 100⟩] 50 7).2.2.2.1)
    ⟨"t1", 1, some 9, 100⟩ [] ⟨"t1", 1, some 9, 100⟩ 9
    (by decide) (by decide) (by decide) (by decide) (by decide) (by decide)

/-- Claim C10: a quantity that is at least the smallest minQuantity, inside
no tier's range, and not past the last tier's bounded maxQuantity, resolves
to the base price. -/
theorem claim10_gap_returns_base (tiers : List PricingTier) (q b : Int)
    (t0 : PricingTier) (rest : List PricingTier) (tl : PricingTier) (m : Int)
    (hs : sortTiers tiers = t0 :: rest)
    (hmin : t0.minQuantity ≤ q)
    (hnosat : ∀ t ∈ tiers, tierSat q t = false)
    (hlast : (t0 :: rest).getLast? = some tl)
    (hm : tl.maxQuantity = some m)
    (hle : q ≤ m) :
    findPriceInTiers tiers q b = b := by
  have hne : ¬(tiers.isEmpty = true) := by
    intro h
    rw [List.isEmpty_iff] at h
    subst h
    simp [sortTiers] at hs
  have hfind : (sortTiers tiers).reverse.find? (tierSat q) = none := by
    rw [List.find?_eq_none]
    intro t ht
    rw [List.mem_reverse, mem_sortTiers] at ht
    simp [hnosat t ht]
  rw [hs] at hfind
  simp only [findPriceInTiers, if_neg hne, hfind, hs, hlast, hm]
  rw [if_neg (not_lt.mpr hmin), if_neg (not_lt.mpr hle)]

/-- Witness for C10: quantity 7 in the gap between tiers 1-5 and 10-20
returns the base price 999. -/
theorem claim10_gap_returns_base_w :
    findPriceInTiers [⟨"a", 1, some 5, 100⟩, ⟨"b", 10, some 20, 80⟩] 7 999 = 999 :=
  claim10_gap_returns_base [⟨"a", 1, some 5, 100⟩, ⟨"b", 10, some 20, 80⟩] 7 999
    ⟨"a", 1, some 5, 100⟩ [⟨"b", 10, some 20, 80⟩] ⟨"b", 10, some 20, 80⟩ 20
    (by decide) (by decide) (by decide) (by decide) (by decide) (by decide)

end InvoiceSystem
